import Mathlib

/-!
Verification of the dynamic multi-provider orchestration pipeline.

This development embeds the core of the `synthesize` repository (the
`/combine` orchestration pipeline in its four variant files: the streaming
server, the basic server `index.js`, and the two batch test runners) as
executable Lean definitions, and proves or refutes the frozen claims about
it.

Conventions of the embedding:
* JavaScript strings are modelled as Lean `String` / `List Char`;
  the character-level operations used by the source (`trim`, `split('\n')`,
  `toUpperCase`, `includes`, `startsWith`, `replace`) are re-implemented
  faithfully over `List Char` (ASCII case mapping; the whitespace class
  contains the ASCII whitespace characters relevant here).
* The two concurrently streaming base-provider calls are modelled as two
  finite fragment lists together with a failure flag (the fragments emitted
  before the call either completes or throws), interleaved into the event
  stream by an arbitrary schedule, joined before the pipeline advances —
  exactly the fork-join of `await Promise.all`.
* External backends are oracles: a `World` record carries each backend's
  behaviour for the one request under consideration.
-/

/-- ASCII whitespace class used to model JavaScript `String.prototype.trim`. -/
def isWs (c : Char) : Bool :=
  c = ' ' || c = '\t' || c = '\n' || c = '\r' || c = '\x0b' || c = '\x0c'

/-- Character-level model of JavaScript `toUpperCase` (ASCII letters). -/
def upChar (c : Char) : Char :=
  match c with
  | 'a' => 'A' | 'b' => 'B' | 'c' => 'C' | 'd' => 'D' | 'e' => 'E' | 'f' => 'F'
  | 'g' => 'G' | 'h' => 'H' | 'i' => 'I' | 'j' => 'J' | 'k' => 'K' | 'l' => 'L'
  | 'm' => 'M' | 'n' => 'N' | 'o' => 'O' | 'p' => 'P' | 'q' => 'Q' | 'r' => 'R'
  | 's' => 'S' | 't' => 'T' | 'u' => 'U' | 'v' => 'V' | 'w' => 'W' | 'x' => 'X'
  | 'y' => 'Y' | 'z' => 'Z'
  | other => other

/-- Uppercase a character list, as JS `s.toUpperCase()`. -/
def upper (l : List Char) : List Char := l.map upChar

/-- Test whether `h` starts with `n` (JS `h.startsWith(n)`). -/
def startsWithL : List Char → List Char → Bool
  | [], _ => true
  | _ :: _, [] => false
  | a :: as, b :: bs => decide (a = b) && startsWithL as bs

/-- Test whether `h` contains `n` as a contiguous substring
(JS `h.includes(n)`). -/
def includesL (n : List Char) : List Char → Bool
  | [] => n.isEmpty
  | c :: cs => startsWithL n (c :: cs) || includesL n cs

/-- Remove the maximal whitespace prefix (left half of JS `trim`). -/
def trimLft (l : List Char) : List Char := l.dropWhile isWs

/-- Remove the maximal whitespace suffix (right half of JS `trim`). -/
def trimRgt (l : List Char) : List Char := (l.reverse.dropWhile isWs).reverse

/-- JS `String.prototype.trim`: strip whitespace from both ends. -/
def trimStr (l : List Char) : List Char := trimRgt (trimLft l)

/-- JS `s.split('\n')` on a character list: always returns at least one
(possibly empty) chunk. -/
def splitNl : List Char → List (List Char)
  | [] => [[]]
  | c :: cs =>
    match splitNl cs with
    | [] => [[c]]
    | h :: t => if c = '\n' then [] :: h :: t else (c :: h) :: t

/-- The chunk returned by `array.pop()` on the result of `split('\n')`:
the last chunk (default `[]`, unreachable since `splitNl` is never empty). -/
def lastChunk (l : List Char) : List Char := (splitNl l).getLastD []

/-- A line is blank when it consists of whitespace only. -/
def blankL (l : List Char) : Bool := l.all isWs

/-- JS `s.replace(pat, '')` for a plain-string pattern: delete the first
occurrence of `pat` (identity when no occurrence). -/
def delFirst (pat : List Char) : List Char → List Char
  | [] => []
  | c :: cs =>
    if startsWithL pat (c :: cs) then List.drop pat.length (c :: cs)
    else c :: delFirst pat cs

/-- The classifier label word the parser searches for. -/
def creativeTok : List Char := ['C', 'R', 'E', 'A', 'T', 'I', 'V', 'E']

/-- Intent labels driving pipeline selection. -/
inductive Intent where
  | FACTUAL
  | CREATIVE
deriving DecidableEq, Repr

/-- The classifier-output parsing implemented identically in all four
variant files:
`response.trim().split('\n')`, `pop()` the last line, `trim().toUpperCase()`
it, and route to CREATIVE iff it `includes("CREATIVE")`. -/
def parseIntent (resp : List Char) : Intent :=
  let finalClassification := upper (trimStr (lastChunk (trimStr resp)))
  if includesL creativeTok finalClassification then .CREATIVE else .FACTUAL

/-- The whitespace-only-line-skipping "last non-empty line" of a response:
the last line (in the `split('\n')` sense) that contains a non-whitespace
character, `[]` when there is none.  A whitespace-only line is not a
content line, so "non-empty" is read as "contains a non-whitespace
character". -/
def lastNonBlankLine (resp : List Char) : List Char :=
  ((splitNl resp).filter (fun l => !blankL l)).getLastD []

/-- The spec's statement of the parsing rule (§4.1): split into lines, and
inspect the last non-empty line, uppercased — CREATIVE iff it contains the
substring "CREATIVE", otherwise FACTUAL (also for garbage and for output
that is empty after trimming). -/
def specIntent (resp : List Char) : Intent :=
  if includesL creativeTok (upper (lastNonBlankLine resp)) then .CREATIVE
  else .FACTUAL

/-- The classifier-output parse `parseIntent` on a Lean `String`. -/
def parseIntentStr (s : String) : Intent := parseIntent s.data

/-- JS `hay.includes(needle)` on Lean `String`s. -/
def jsIncludes (hay needle : String) : Bool := includesL needle.data hay.data

/-- Model choices for one pipeline: which model serves base-A (`gpt`),
base-B (`gemini`) and the synthesizer role. -/
structure PipelineConfig where
  gpt : String
  gemini : String
  synthesizer : String
deriving DecidableEq, Repr

/-- A named pipeline, as the entries of `DYNAMIC_PIPELINES`. -/
structure Pipeline where
  name : String
  config : PipelineConfig
deriving DecidableEq, Repr

/-- The static `DYNAMIC_PIPELINES` registry (identical in all four files). -/
def DYNAMIC_PIPELINES : Intent → Pipeline
  | .FACTUAL =>
      ⟨"Factual Pipeline (SOTA Base -> Quick Synth)",
       ⟨"gpt-5", "gemini-2.5-pro", "gpt-4o"⟩⟩
  | .CREATIVE =>
      ⟨"Creative Pipeline (SOTA Base -> SOTA Synth)",
       ⟨"gpt-5", "gemini-2.5-pro", "gemini-2.5-pro"⟩⟩

/-- The fixed classifier model. -/
def CLASSIFIER_MODEL : String := "gpt-4o"

/-- One conversation turn as supplied by the caller; the role is the raw
string of the request body (the source compares it against `'user'`). -/
structure Turn where
  role : String
  content : String
deriving DecidableEq, Repr

/-- The streaming server's `formatChatHistory`: role-labelled transcript,
or a literal placeholder for an absent/empty history. -/
def formatChatHistory (history : List Turn) : String :=
  if history.isEmpty then "No previous conversation."
  else
    String.intercalate "\n"
      (history.map fun t =>
        (if t.role = "user" then "User" else "Assistant") ++ ": " ++ t.content)

/-- The streaming server's `getSynthesisPrompt` template. -/
def getSynthesisPromptS (prompt gptResponse geminiResponse constraints : String)
    (chatHistory : List Turn) : String :=
  let historyText := formatChatHistory chatHistory
  let constraintInstruction :=
    if constraints = "" then ""
    else "\n\nCRITICAL INSTRUCTION: Adhere to this constraint: " ++ constraints ++ "\n"
  "You are an expert synthesizer. Given a conversation history and two new draft responses to the user's latest prompt, your task is to merge them into one superior, cohesive response.\n\nConversation History:\n"
    ++ historyText
    ++ "\n\nUser's Latest Prompt: \"" ++ prompt
    ++ "\"\n\n---\nDraft Response A:\n\"" ++ gptResponse
    ++ "\"\n\n---\nDraft Response B:\n\"" ++ geminiResponse
    ++ "\"\n---\n" ++ constraintInstruction
    ++ "\nSynthesize the two drafts into a single, final response that directly and thoughtfully answers the user's latest prompt, maintaining the context of the conversation. Final Response:"

/-- The streaming server's `getRefinementPrompt` template. -/
def getRefinementPromptS (prompt singleResponse constraints : String)
    (chatHistory : List Turn) : String :=
  let historyText := formatChatHistory chatHistory
  let constraintInstruction :=
    if constraints = "" then ""
    else "\n\nCRITICAL INSTRUCTION: Adhere to this constraint: " ++ constraints ++ "\n"
  "You are an expert editor. Review the following draft response in the context of the conversation history and the user's latest prompt. Your task is to refine and improve it.\n\nConversation History:\n"
    ++ historyText
    ++ "\n\nUser's Latest Prompt: \"" ++ prompt
    ++ "\"\n\n---\nDraft Response to Refine:\n\"" ++ singleResponse
    ++ "\"\n---\n" ++ constraintInstruction
    ++ "\nRewrite the draft to be a superior, final response that directly answers the user's latest prompt and adheres to any constraints. Final Response:"

/-- The streaming server's `getClassificationPrompt` template. -/
def getClassificationPromptS (prompt : String) (chatHistory : List Turn) : String :=
  let historyText := formatChatHistory chatHistory
  "Analyze the user's LATEST prompt in the context of the conversation history. Classify the intent of the LATEST prompt as \"FACTUAL\" or \"CREATIVE\".\n\n- \"FACTUAL\": Requests for explanations, code, technical info, summaries.\n- \"CREATIVE\": Requests for stories, brainstorming, poetry, open-ended tasks.\n\nFirst, provide a brief reasoning. Second, on a new line, provide the classification.\n\nConversation History:\n"
    ++ historyText
    ++ "\n\nUser's Latest Prompt: \"" ++ prompt
    ++ "\"\n\nReasoning:\nClassification:"

/-- The streaming server's non-streaming adapter `getGptResponse`: it
returns the backend's content, and its own catch branch converts any
backend failure (`none`) into a human-readable error-marker string. -/
def getGptResponseS (backend : Option String) (modelName : String) : String :=
  match backend with
  | some content => content
  | none => "ERROR: OpenAI API call failed for model " ++ modelName ++ "."

/-- The reasoning string extracted from the classifier response: all lines
except the popped last one, joined with spaces, with the first literal
`Reasoning:` deleted, trimmed. -/
def reasoningOf (resp : String) : String :=
  let classifierLines := splitNl (trimStr resp.data)
  ⟨trimStr (delFirst "Reasoning:".data
    (List.intercalate [' '] classifierLines.dropLast))⟩

/-- The request body of `/combine` (streaming server): `chatHistory` is
`none` when the field is absent from the JSON body (JS `undefined`). -/
structure Request where
  prompt : String
  constraints : String
  chatHistory : Option (List Turn)

/-- Oracle for the external backends during one request: the classifier
call's outcome (`none` = the underlying call threw), each base provider's
successfully emitted stream fragments and whether the stream then threw,
the synthesizer stream's fragments and failure flag, and the arrival-order
schedule interleaving the two concurrent base streams (`true` = next event
is A's). -/
structure World where
  classifierBackend : Option String
  aFrags : List String
  aFails : Bool
  bFrags : List String
  bFails : Bool
  synthFrags : List String
  synthFails : Bool
  sched : List Bool

/-- The tagged server-sent events of the streaming response. -/
inductive Ev where
  | status (message : String)
  | initialData (pipelineName classifierReasoning : String)
  | chunkA (text : String)
  | chunkB (text : String)
  | fallbackLog (log : String)
  | synthChunk (text : String)
  | done (message : String)
  | error (message : String)
deriving DecidableEq, Repr

/-- Error-marker fragment emitted on base-A stream failure. -/
def errMarkA : String := "\n\n--- ERROR: OpenAI API call failed. ---"

/-- Error-marker fragment emitted on base-B stream failure. -/
def errMarkB : String := "\n\n--- ERROR: Google AI API call failed. ---"

/-- Label prepended to the surviving base result when the synthesizer
stream fails. -/
def synthFailLabel : String :=
  "\n\n--- SYNTHESIS FAILED ---\nDisplaying best available base response:\n\n"

/-- Message of the `error` event produced by the outer catch when the
handler dereferences `chatHistory.slice` on an absent `chatHistory`. -/
def errMsgNoHistory : String :=
  "An unexpected error occurred: Cannot read properties of undefined (reading 'slice')"

/-- Interleaving of two event streams under an arrival schedule: `true`
picks from the first stream; an exhausted schedule or stream flushes the
remainder in order.  Every interleaving of the two streams that preserves
each stream's own order is `interleave s` for some schedule `s`. -/
def interleave : List Bool → List Ev → List Ev → List Ev
  | [], as, bs => as ++ bs
  | t :: s, as, bs =>
    match t, as, bs with
    | true, a :: as', bs => a :: interleave s as' bs
    | false, as, b :: bs' => b :: interleave s as bs'
    | _, as, bs => as ++ bs

/-- The streaming server's fallback decision (Step 3 of the handler):
branch on the pair of failure flags; `none` is the dual-failure branch
(the handler returns without synthesizing), otherwise the synthesis or
refinement prompt to send, paired with the fallback log. -/
def decideFallback (gptFailed geminiFailed : Bool)
    (prompt gptResult geminiResult constraints : String)
    (hist : List Turn) : Option (String × String) :=
  if gptFailed && geminiFailed then none
  else if gptFailed then
    some (getRefinementPromptS prompt geminiResult constraints hist,
          "Model A failed. Refining Model B's response.")
  else if geminiFailed then
    some (getRefinementPromptS prompt gptResult constraints hist,
          "Model B failed. Refining Model A's response.")
  else
    some (getSynthesisPromptS prompt gptResult geminiResult constraints hist, "")

/-- The fallback decision as the handler computes it: the accumulated text
of each provider is the concatenation of its successfully emitted
fragments (the catch branch never appends the error marker). -/
def synthPlan (prompt constraints : String) (hist : List Turn) (w : World) :
    Option (String × String) :=
  decideFallback w.aFails w.bFails prompt
    (String.join w.aFrags) (String.join w.bFrags) constraints hist

/-- The event trace of the streaming `/combine` handler body (after the
`400` prompt check), for a request and a backend world. -/
def combineEvents (req : Request) (w : World) : List Ev :=
  match req.chatHistory with
  | none => [Ev.error errMsgNoHistory]
  | some ch =>
    let historyForPrompting := ch.dropLast
    let classificationResponse := getGptResponseS w.classifierBackend CLASSIFIER_MODEL
    let intent := parseIntentStr classificationResponse
    let pipeline := DYNAMIC_PIPELINES intent
    let gptResult := String.join w.aFrags
    let geminiResult := String.join w.bFrags
    let aEvs := w.aFrags.map Ev.chunkA
      ++ (if w.aFails then [Ev.chunkA errMarkA] else [])
    let bEvs := w.bFrags.map Ev.chunkB
      ++ (if w.bFails then [Ev.chunkB errMarkB] else [])
    let pre := [Ev.status "Classifying prompt intent...",
                Ev.initialData pipeline.name (reasoningOf classificationResponse),
                Ev.status "Generating base responses..."]
    let base := interleave w.sched aEvs bEvs
    match synthPlan req.prompt req.constraints historyForPrompting w with
    | none => pre ++ base
    | some (_, fallbackLog) =>
      let mid := [Ev.fallbackLog fallbackLog,
                  Ev.status "Synthesizing final response..."]
      let synthEvs :=
        if w.synthFails then
          let log2 := fallbackLog ++ " Synthesis step failed. Displaying best available response."
          let fallbackResponse := if !w.aFails then gptResult else geminiResult
          w.synthFrags.map Ev.synthChunk
            ++ [Ev.fallbackLog log2,
                Ev.synthChunk (synthFailLabel ++ fallbackResponse)]
        else w.synthFrags.map Ev.synthChunk
      pre ++ base ++ mid ++ synthEvs ++ [Ev.done "Stream complete."]

/-- The `/combine` endpoint response: `badRequest` is the immediate 400
for a missing/empty prompt; otherwise the event stream. -/
inductive Resp where
  | badRequest
  | stream (events : List Ev)
deriving DecidableEq, Repr

/-- The streaming `/combine` handler: reject an empty prompt with a 400
before any streaming, else stream the events of the pipeline run. -/
def combine (req : Request) (w : World) : Resp :=
  if req.prompt = "" then .badRequest else .stream (combineEvents req w)

/-- Is an event terminal (`done` or `error`)? -/
def isTerminal : Ev → Bool
  | .done _ => true
  | .error _ => true
  | _ => false

/-- Is an event a base-provider chunk? -/
def isBaseChunk : Ev → Bool
  | .chunkA _ => true
  | .chunkB _ => true
  | _ => false

/-- Is an event a synthesis chunk? -/
def isSynthChunk : Ev → Bool
  | .synthChunk _ => true
  | _ => false

/-- The texts of the `chunkA` events of a trace, in emission order. -/
def chunkATexts (l : List Ev) : List String :=
  l.filterMap fun e => match e with | .chunkA t => some t | _ => none

/-- The spec-side parsing rule `specIntent` on a Lean `String`. -/
def specIntentStr (s : String) : Intent := specIntent s.data

/-- Is an event an `error` event? -/
def isErrorEv : Ev → Bool
  | .error _ => true
  | _ => false

/-- The base-A event list of a run: the fragment chunks, then the error
marker when the stream failed. -/
def aEvs (w : World) : List Ev :=
  w.aFrags.map Ev.chunkA ++ (if w.aFails then [Ev.chunkA errMarkA] else [])

/-- The base-B event list of a run. -/
def bEvs (w : World) : List Ev :=
  w.bFrags.map Ev.chunkB ++ (if w.bFails then [Ev.chunkB errMarkB] else [])

/-- Modelled from the spec: the external backend contract of §4.4 — the
lazy fragment sequence of a streaming invocation is finite and its
fragments concatenate to the full text that the one-shot invocation
returns for the same prompt, model and history.  The backend itself is an
external collaborator outside the repository, so its one-shot text is
represented by this concatenation. -/
def oneShotTextA (w : World) : String := String.join w.aFrags

/-- The basic server `index.js`'s `getGptResponse`: its catch branch converts a backend
failure (`none`) into an error-marker string; a successful call returns
the backend content unchanged. -/
def getGptResponseIdx (backend : Option String) (modelName : String) : String :=
  match backend with
  | some content => content
  | none => "ERROR: OpenAI API call failed for model " ++ modelName ++ "."

/-- The basic server `index.js`'s failure classification of a settled base result
(`gptResult.includes('ERROR')` / `geminiResult.includes('ERROR')`):
the failed flag is computed by content inspection alone. -/
def baseFailedIdx (result : String) : Bool := jsIncludes result "ERROR"

/-- The basic server `index.js`'s `getSynthesisPrompt` template. -/
def getSynthesisPromptIdx (prompt gptResponse geminiResponse : String) : String :=
  "Your persona is a helpful and pragmatic expert. Your task is to synthesize two AI-generated responses into a single, superior answer. Original User Prompt: \""
    ++ prompt
    ++ "\"\n\n---\nResponse A:\n\"" ++ gptResponse
    ++ "\"\n\n---\nResponse B:\n\"" ++ geminiResponse
    ++ "\"\n\n---\nInstructions:\n1. Assess Helpfulness: Prioritize information from the more helpful response.\n2. Extract Core Information: Identify key facts.\n3. Synthesize: Create a single, cohesive answer.\n4. Final Output: Be direct. Do not mention the synthesis process.\n\nSynthesized and Superior Response:"

/-- The basic server `index.js`'s `getRefinementPrompt` template. -/
def getRefinementPromptIdx (prompt singleResponse : String) : String :=
  "Your persona is a helpful and pragmatic expert. Your task is to review and improve the following AI-generated response. The goal is to make it clearer, more comprehensive, and more direct. Original User Prompt: \""
    ++ prompt
    ++ "\"\n\n---\nAI Response to Refine:\n\"" ++ singleResponse
    ++ "\"\n\n---\nInstructions:\n1. Analyze the response for clarity, accuracy, and completeness.\n2. Rewrite it to be a superior version. Ensure it directly answers the user's prompt.\n3. Do not mention the refinement process.\n\nRefined and Superior Response:"

/-- The basic server `index.js`'s Step 4 (handle fallbacks): the failed flags are derived by
content sniffing, then drive the branch exactly as in the streaming
variant; `none` is the dual-failure early return. -/
def combineFallbackStepIdx (prompt gptResult geminiResult : String) :
    Option (String × String) :=
  let gptFailed := baseFailedIdx gptResult
  let geminiFailed := baseFailedIdx geminiResult
  if gptFailed && geminiFailed then none
  else if gptFailed then
    some (getRefinementPromptIdx prompt geminiResult,
          "A primary model was unavailable. Refining the best available response.")
  else if geminiFailed then
    some (getRefinementPromptIdx prompt gptResult,
          "A primary model was unavailable. Refining the best available response.")
  else some (getSynthesisPromptIdx prompt gptResult geminiResult, "")

/-- Boolean predicate for not-a-newline: the guard of the last-line view. -/
def notNl (c : Char) : Bool := !(decide (c = '\n'))

/-- Proof-internal view of "the last content line of `x`, up to
end-trimming": drop trailing whitespace, then take the trailing run up to
the rightmost newline. -/
def lastSeg (x : List Char) : List Char :=
  ((x.reverse.dropWhile isWs).takeWhile notNl).reverse

theorem combineEvents_eq_of_plan (p c : String) (ch : List Turn) (w : World)
    (pr lg : String) (hplan : synthPlan p c ch.dropLast w = some (pr, lg)) :
    combineEvents ⟨p, c, some ch⟩ w =
      [Ev.status "Classifying prompt intent...",
       Ev.initialData
         (DYNAMIC_PIPELINES (parseIntentStr
            (getGptResponseS w.classifierBackend CLASSIFIER_MODEL))).name
         (reasoningOf (getGptResponseS w.classifierBackend CLASSIFIER_MODEL)),
       Ev.status "Generating base responses..."]
      ++ interleave w.sched (aEvs w) (bEvs w)
      ++ [Ev.fallbackLog lg, Ev.status "Synthesizing final response..."]
      ++ (if w.synthFails then
            w.synthFrags.map Ev.synthChunk
              ++ [Ev.fallbackLog
                    (lg ++ " Synthesis step failed. Displaying best available response."),
                  Ev.synthChunk (synthFailLabel
                    ++ (if !w.aFails then String.join w.aFrags else String.join w.bFrags))]
          else w.synthFrags.map Ev.synthChunk)
      ++ [Ev.done "Stream complete."] := by
  simp only [combineEvents, hplan, aEvs, bEvs, List.append_assoc]

theorem combineEvents_eq_of_none (p c : String) (ch : List Turn) (w : World)
    (hplan : synthPlan p c ch.dropLast w = none) :
    combineEvents ⟨p, c, some ch⟩ w =
      [Ev.status "Classifying prompt intent...",
       Ev.initialData
         (DYNAMIC_PIPELINES (parseIntentStr
            (getGptResponseS w.classifierBackend CLASSIFIER_MODEL))).name
         (reasoningOf (getGptResponseS w.classifierBackend CLASSIFIER_MODEL)),
       Ev.status "Generating base responses..."]
      ++ interleave w.sched (aEvs w) (bEvs w) := by
  simp only [combineEvents, hplan, aEvs, bEvs]

theorem isBaseChunk_aEvs (w : World) : ∀ e ∈ aEvs w, isBaseChunk e = true := by
  intro e he
  rcases List.mem_append.mp he with h | h
  · rcases List.mem_map.mp h with ⟨t, _, rfl⟩; rfl
  · rcases hb : w.aFails with hf | ht <;> rw [hb] at h
    · simp at h
    · rcases List.mem_singleton.mp (by simpa using h) with rfl; rfl

theorem isBaseChunk_bEvs (w : World) : ∀ e ∈ bEvs w, isBaseChunk e = true := by
  intro e he
  rcases List.mem_append.mp he with h | h
  · rcases List.mem_map.mp h with ⟨t, _, rfl⟩; rfl
  · rcases hb : w.bFails with hf | ht <;> rw [hb] at h
    · simp at h
    · rcases List.mem_singleton.mp (by simpa using h) with rfl; rfl

theorem mem_interleave {s : List Bool} {as bs : List Ev} {e : Ev}
    (h : e ∈ interleave s as bs) : e ∈ as ∨ e ∈ bs := by
  induction s generalizing as bs with
  | nil => simpa [interleave] using h
  | cons t s ih =>
    cases t with
    | true =>
      cases as with
      | nil => simp [interleave] at h; exact Or.inr h
      | cons a as' =>
        simp only [interleave, List.mem_cons] at h
        rcases h with h | h
        · exact Or.inl (by simp [h])
        · rcases ih h with h' | h'
          · exact Or.inl (List.mem_cons_of_mem _ h')
          · exact Or.inr h'
    | false =>
      cases bs with
      | nil => simp [interleave] at h; exact Or.inl h
      | cons b bs' =>
        simp only [interleave, List.mem_cons] at h
        rcases h with h | h
        · exact Or.inr (by simp [h])
        · rcases ih h with h' | h'
          · exact Or.inl h'
          · exact Or.inr (List.mem_cons_of_mem _ h')

theorem mem_interleave_left {s : List Bool} {as bs : List Ev} {e : Ev}
    (h : e ∈ as) : e ∈ interleave s as bs := by
  induction s generalizing as bs with
  | nil => simp [interleave, h]
  | cons t s ih =>
    cases t with
    | true =>
      cases as with
      | nil => cases h
      | cons a as' =>
        rcases List.mem_cons.mp h with h' | h'
        · simp [interleave, h']
        · simp only [interleave, List.mem_cons]
          exact Or.inr (ih h')
    | false =>
      cases bs with
      | nil => simp [interleave, h]
      | cons b bs' =>
        simp only [interleave, List.mem_cons]
        exact Or.inr (ih h)

theorem mem_interleave_right {s : List Bool} {as bs : List Ev} {e : Ev}
    (h : e ∈ bs) : e ∈ interleave s as bs := by
  induction s generalizing as bs with
  | nil => simp [interleave, h]
  | cons t s ih =>
    cases t with
    | true =>
      cases as with
      | nil => simp [interleave, h]
      | cons a as' =>
        simp only [interleave, List.mem_cons]
        exact Or.inr (ih h)
    | false =>
      cases bs with
      | nil => cases h
      | cons b bs' =>
        rcases List.mem_cons.mp h with h' | h'
        · simp [interleave, h']
        · simp only [interleave, List.mem_cons]
          exact Or.inr (ih h')

theorem getLastD_indep {α : Type} (a b : α) :
    ∀ (l : List α), l ≠ [] → l.getLastD a = l.getLastD b := by
  intro l
  induction l with
  | nil => intro h; exact absurd rfl h
  | cons x xs ih =>
    intro _
    cases xs with
    | nil => rfl
    | cons y ys =>
      have h1 : ((x :: y :: ys).getLastD a) = ((y :: ys).getLastD a) := by
        simp [List.getLastD, List.getLast?_cons_cons]
      have h2 : ((x :: y :: ys).getLastD b) = ((y :: ys).getLastD b) := by
        simp [List.getLastD, List.getLast?_cons_cons]
      rw [h1, h2, ih (by simp)]

theorem getLastD_cons_ne {α : Type} (x d : α) {t : List α} (h : t ≠ []) :
    (x :: t).getLastD d = t.getLastD d := by
  cases t with
  | nil => exact absurd rfl h
  | cons y ys =>
    have h1 : ((x :: y :: ys).getLastD d) = ((y :: ys).getLastD x) := by
      simp [List.getLastD, List.getLast?_cons_cons]
    rw [h1, getLastD_indep x d _ (by simp)]

theorem dropLast_cons_ne {α : Type} (x : α) {t : List α} (h : t ≠ []) :
    (x :: t).dropLast = x :: t.dropLast := by
  cases t with
  | nil => exact absurd rfl h
  | cons y ys => rfl

theorem startsWithL_iff : ∀ (n h : List Char), startsWithL n h = true ↔ ∃ t, h = n ++ t := by
  intro n
  induction n with
  | nil => intro h; simp [startsWithL]
  | cons a as ih =>
    intro h
    cases h with
    | nil =>
      simp only [startsWithL]
      constructor
      · intro hf; cases hf
      · rintro ⟨t, ht⟩; cases ht
    | cons b bs =>
      simp only [startsWithL, Bool.and_eq_true, decide_eq_true_eq, ih bs]
      constructor
      · rintro ⟨rfl, t, rfl⟩; exact ⟨t, rfl⟩
      · rintro ⟨t, ht⟩
        injection ht with h1 h2
        exact ⟨h1.symm, t, h2⟩

theorem includesL_iff (n : List Char) :
    ∀ h, includesL n h = true ↔ ∃ s t, h = s ++ n ++ t := by
  intro h
  induction h with
  | nil =>
    simp only [includesL, List.isEmpty_iff]
    constructor
    · rintro rfl; exact ⟨[], [], rfl⟩
    · rintro ⟨s, t, ht⟩
      rcases List.append_eq_nil.mp ht.symm with ⟨h1, h2⟩
      exact (List.append_eq_nil.mp h1).2
  | cons c cs ih =>
    simp only [includesL, Bool.or_eq_true, startsWithL_iff, ih]
    constructor
    · rintro (⟨t, ht⟩ | ⟨s, t, ht⟩)
      · exact ⟨[], t, by simp [ht]⟩
      · exact ⟨c :: s, t, by simp [ht]⟩
    · rintro ⟨s, t, ht⟩
      cases s with
      | nil => exact Or.inl ⟨t, by simpa using ht⟩
      | cons x xs =>
        injection ht with h1 h2
        exact Or.inr ⟨xs, t, h2⟩

theorem includesL_nil : ∀ h : List Char, includesL [] h = true := by
  intro h
  cases h with
  | nil => rfl
  | cons c cs => simp [includesL, startsWithL]

theorem includes_reverse (n h : List Char) :
    includesL n h.reverse = includesL n.reverse h := by
  have key : includesL n h.reverse = true ↔ includesL n.reverse h = true := by
    rw [includesL_iff, includesL_iff]
    constructor
    · rintro ⟨s, t, hst⟩
      refine ⟨t.reverse, s.reverse, ?_⟩
      have := congrArg List.reverse hst
      simpa [List.reverse_append, List.append_assoc] using this
    · rintro ⟨s, t, hst⟩
      refine ⟨t.reverse, s.reverse, ?_⟩
      have := congrArg List.reverse hst
      simpa [List.reverse_append, List.append_assoc] using this
  cases hv : includesL n h.reverse with
  | true => exact (key.mp hv).symm
  | false =>
    cases hw : includesL n.reverse h with
    | true => rw [key.mpr hw] at hv; cases hv
    | false => rfl

theorem includes_dropWhile_ws (n : List Char) (hn : ∀ c ∈ n, isWs c = false) :
    ∀ l, includesL n (l.dropWhile isWs) = includesL n l := by
  intro l
  induction l with
  | nil => rfl
  | cons c cs ih =>
    cases hw : isWs c with
    | false => simp [List.dropWhile_cons, hw]
    | true =>
      rw [List.dropWhile_cons, if_pos hw, ih]
      cases n with
      | nil => rw [includesL_nil, includesL_nil]
      | cons a as =>
        have ha : decide (a = c) = false := by
          have hws : isWs a = false := hn a (by simp)
          simp only [decide_eq_false_iff_not]
          rintro rfl; rw [hw] at hws; cases hws
        have hred : includesL (a :: as) (c :: cs) = includesL (a :: as) cs := by
          simp [includesL, startsWithL, ha]
        rw [hred]

theorem includes_trimLft_ws (n : List Char) (hn : ∀ c ∈ n, isWs c = false)
    (l : List Char) : includesL n (trimLft l) = includesL n l :=
  includes_dropWhile_ws n hn l

theorem includes_trimRgt_ws (n : List Char) (hn : ∀ c ∈ n, isWs c = false)
    (l : List Char) : includesL n (trimRgt l) = includesL n l := by
  have hrn : ∀ c ∈ n.reverse, isWs c = false := by
    intro c hc; exact hn c (List.mem_reverse.mp hc)
  calc includesL n (trimRgt l)
      = includesL n.reverse (l.reverse.dropWhile isWs) := includes_reverse _ _
    _ = includesL n.reverse l.reverse := includes_dropWhile_ws _ hrn _
    _ = includesL n l := by rw [← includes_reverse, List.reverse_reverse]

theorem includes_trimStr_ws (n : List Char) (hn : ∀ c ∈ n, isWs c = false)
    (l : List Char) : includesL n (trimStr l) = includesL n l := by
  rw [trimStr, includes_trimRgt_ws n hn, includes_trimLft_ws n hn]

theorem upChar_of_ws {c : Char} (h : isWs c = true) : upChar c = c := by
  simp only [isWs, Bool.or_eq_true, decide_eq_true_eq] at h
  rcases h with ((((rfl | rfl) | rfl) | rfl) | rfl) | rfl <;> rfl

theorem isWs_upChar (c : Char) : isWs (upChar c) = isWs c := by
  unfold upChar
  split <;> rfl

theorem upper_dropWhile (l : List Char) :
    upper (l.dropWhile isWs) = (upper l).dropWhile isWs := by
  induction l with
  | nil => rfl
  | cons c cs ih =>
    cases hw : isWs c with
    | false => simp [List.dropWhile_cons, hw, upper, isWs_upChar]
    | true =>
      rw [List.dropWhile_cons, if_pos hw, ih]
      show (upper cs).dropWhile isWs = (upChar c :: upper cs).dropWhile isWs
      rw [List.dropWhile_cons, if_pos (by rw [isWs_upChar, hw])]

theorem upper_reverse (l : List Char) : upper l.reverse = (upper l).reverse := by
  simp [upper, List.map_reverse]

theorem upper_trimLft (l : List Char) : upper (trimLft l) = trimLft (upper l) :=
  upper_dropWhile l

theorem upper_trimRgt (l : List Char) : upper (trimRgt l) = trimRgt (upper l) := by
  rw [trimRgt, trimRgt, upper_reverse, upper_dropWhile, upper_reverse]

theorem upper_trimStr (l : List Char) : upper (trimStr l) = trimStr (upper l) := by
  rw [trimStr, trimStr, upper_trimRgt, upper_trimLft]

theorem splitNl_ne_nil : ∀ l : List Char, splitNl l ≠ [] := by
  intro l
  cases l with
  | nil => simp [splitNl]
  | cons c cs =>
    simp only [splitNl]
    rcases h : splitNl cs with _ | ⟨a, as⟩
    · simp
    · by_cases hc : c = '\n' <;> simp [hc]

theorem dropLast_append_getLastD {α : Type} (d : α) :
    ∀ l : List α, l ≠ [] → l.dropLast ++ [l.getLastD d] = l := by
  intro l
  induction l with
  | nil => intro h; exact absurd rfl h
  | cons x xs ih =>
    intro _
    cases xs with
    | nil => simp [List.getLastD]
    | cons y ys =>
      rw [dropLast_cons_ne x (by simp), getLastD_cons_ne x d (by simp),
        List.cons_append, ih (by simp)]

theorem splitNl_snoc_nl : ∀ l : List Char, splitNl (l ++ ['\n']) = splitNl l ++ [[]] := by
  intro l
  induction l with
  | nil => rfl
  | cons c cs ih =>
    show splitNl (c :: (cs ++ ['\n'])) = _
    simp only [splitNl, ih]
    rcases h : splitNl cs with _ | ⟨a, as⟩
    · exact absurd h (splitNl_ne_nil cs)
    · by_cases hc : c = '\n' <;> simp [hc]

theorem splitNl_snoc (c : Char) (hc : ¬c = '\n') :
    ∀ l : List Char, splitNl (l ++ [c]) =
      (splitNl l).dropLast ++ [(splitNl l).getLastD [] ++ [c]] := by
  intro l
  induction l with
  | nil => simp [splitNl, hc, List.getLastD]
  | cons a as ih =>
    show splitNl (a :: (as ++ [c])) = _
    rcases hT : splitNl as with _ | ⟨h, t⟩
    · exact absurd hT (splitNl_ne_nil as)
    · rcases ht : t with _ | ⟨t1, t2⟩
      · -- single-chunk tail: as contains no newline
        have ih' : splitNl (as ++ [c]) = [h ++ [c]] := by
          rw [ih, hT, ht]; simp [List.getLastD]
        by_cases ha : a = '\n' <;>
          simp [splitNl, ih', hT, ht, ha, List.getLastD]
      · -- multi-chunk tail
        have htne : t ≠ [] := by rw [ht]; simp
        have ih' : splitNl (as ++ [c]) =
            h :: (t.dropLast ++ [t.getLastD [] ++ [c]]) := by
          rw [ih, hT, dropLast_cons_ne h htne, getLastD_cons_ne h [] htne,
            List.cons_append]
        rw [ht] at ih' htne
        by_cases ha : a = '\n' <;>
          simp [splitNl, ih', hT, ht, ha, dropLast_cons_ne, getLastD_cons_ne,
            List.getLastD]

theorem lastChunk_rev : ∀ l : List Char, lastChunk l = ((l.reverse.takeWhile notNl)).reverse := by
  intro l
  induction l using List.reverseRecOn with
  | nil => rfl
  | append_singleton l c ih =>
    by_cases hc : c = '\n'
    · subst hc
      rw [lastChunk, splitNl_snoc_nl, List.getLastD_concat]
      simp [notNl]
    · rw [lastChunk, splitNl_snoc c hc, List.getLastD_concat]
      have : ((l ++ [c]).reverse.takeWhile notNl).reverse
          = (l.reverse.takeWhile notNl).reverse ++ [c] := by
        simp [List.takeWhile_cons, notNl, hc]
      rw [this, ← ih, lastChunk]

theorem takeWhile_append_stop {p : Char → Bool} {u : List Char} (v : List Char)
    (hx : ∃ x ∈ u, p x = false) : (u ++ v).takeWhile p = u.takeWhile p := by
  induction u with
  | nil => rcases hx with ⟨x, hx, _⟩; cases hx
  | cons a u ih =>
    rcases hx with ⟨x, hxmem, hxp⟩
    by_cases ha : p a = true
    · rcases List.mem_cons.mp hxmem with rfl | hmem
      · rw [ha] at hxp; cases hxp
      · simp [List.takeWhile_cons, ha, ih ⟨x, hmem, hxp⟩]
    · simp [List.takeWhile_cons, Bool.eq_false_iff.mpr ha]

theorem trimLft_all_ws_append {a : List Char} (ha : ∀ c ∈ a, isWs c = true)
    (z : List Char) : trimLft (a ++ z) = trimLft z :=
  List.dropWhile_append_of_pos ha

theorem trimStr_all_ws_append {a : List Char} (ha : ∀ c ∈ a, isWs c = true)
    (z : List Char) : trimStr (a ++ z) = trimStr z := by
  rw [trimStr, trimStr, trimLft_all_ws_append ha]

theorem trimRgt_snoc_ws {c : Char} (hc : isWs c = true) (l : List Char) :
    trimRgt (l ++ [c]) = trimRgt l := by
  rw [trimRgt, trimRgt]
  have : (l ++ [c]).reverse = c :: l.reverse := by simp
  rw [this, List.dropWhile_cons, if_pos hc]

theorem trimStr_snoc_ws {c : Char} (hc : isWs c = true) (l : List Char) :
    trimStr (l ++ [c]) = trimStr l := by
  by_cases hl : trimLft l = []
  · have hall : ∀ x ∈ l, isWs x = true := List.dropWhile_eq_nil_iff.mp hl
    have h1 : trimLft (l ++ [c]) = [] := by
      apply List.dropWhile_eq_nil_iff.mpr
      intro x hx
      rcases List.mem_append.mp hx with hx | hx
      · exact hall x hx
      · rcases List.mem_singleton.mp hx with rfl; exact hc
    rw [trimStr, trimStr, h1, hl]
  · have h1 : trimLft (l ++ [c]) = trimLft l ++ [c] := by
      rw [trimLft, trimLft] at *
      rw [List.dropWhile_append, if_neg (by simpa [List.isEmpty_iff] using hl)]
    rw [trimStr, trimStr, h1, trimRgt_snoc_ws hc]

theorem blankL_snoc_ws {c : Char} (hc : isWs c = true) (l : List Char) :
    blankL (l ++ [c]) = blankL l := by
  simp [blankL, List.all_append, hc]

theorem lastSeg_snoc_ws {c : Char} (hc : isWs c = true) (l : List Char) :
    lastSeg (l ++ [c]) = lastSeg l := by
  rw [lastSeg, lastSeg]
  have hrev : (l ++ [c]).reverse = c :: l.reverse := by simp
  rw [hrev, List.dropWhile_cons, if_pos hc]

theorem trim_lastNonBlank_eq_lastSeg :
    ∀ r : List Char, trimStr (lastNonBlankLine r) = trimStr (lastSeg r) := by
  intro r
  induction r using List.reverseRecOn with
  | nil => rfl
  | append_singleton l c ih =>
    by_cases hw : isWs c = true
    · rw [lastSeg_snoc_ws hw]
      by_cases hc : c = '\n'
      · subst hc
        have hlnb : lastNonBlankLine (l ++ ['\n']) = lastNonBlankLine l := by
          rw [lastNonBlankLine, lastNonBlankLine, splitNl_snoc_nl, List.filter_append]
          simp [blankL]
        rw [hlnb]; exact ih
      · have hSne : splitNl l ≠ [] := splitNl_ne_nil l
        have hsplit : splitNl (l ++ [c]) =
            (splitNl l).dropLast ++ [(splitNl l).getLastD [] ++ [c]] :=
          splitNl_snoc c hc l
        have hSdecomp : (splitNl l).dropLast ++ [(splitNl l).getLastD []] = splitNl l :=
          dropLast_append_getLastD [] (splitNl l) hSne
        have hblk : blankL ((splitNl l).getLastD [] ++ [c])
            = blankL ((splitNl l).getLastD []) := blankL_snoc_ws hw _
        by_cases hb : blankL ((splitNl l).getLastD []) = true
        · have hf1 : List.filter (fun x => !blankL x) [(splitNl l).getLastD [] ++ [c]] = [] := by
            simp only [List.filter_cons, List.filter_nil, hblk, hb, Bool.not_true]
            rfl
          have hf2 : List.filter (fun x => !blankL x) [(splitNl l).getLastD []] = [] := by
            simp only [List.filter_cons, List.filter_nil, hb, Bool.not_true]
            rfl
          have h1 : lastNonBlankLine (l ++ [c]) =
              (((splitNl l).dropLast).filter (fun x => !blankL x)).getLastD [] := by
            rw [lastNonBlankLine, hsplit, List.filter_append, hf1, List.append_nil]
          have h2 : lastNonBlankLine l =
              (((splitNl l).dropLast).filter (fun x => !blankL x)).getLastD [] := by
            conv_lhs => rw [lastNonBlankLine, ← hSdecomp]
            rw [List.filter_append, hf2, List.append_nil]
          rw [h1, ← h2]; exact ih
        · have hb' : blankL ((splitNl l).getLastD []) = false :=
            Bool.eq_false_iff.mpr hb
          have hf1 : List.filter (fun x => !blankL x) [(splitNl l).getLastD [] ++ [c]]
              = [(splitNl l).getLastD [] ++ [c]] := by
            simp only [List.filter_cons, List.filter_nil, hblk, hb', Bool.not_false]
            rfl
          have hf2 : List.filter (fun x => !blankL x) [(splitNl l).getLastD []]
              = [(splitNl l).getLastD []] := by
            simp only [List.filter_cons, List.filter_nil, hb', Bool.not_false]
            rfl
          have h1 : lastNonBlankLine (l ++ [c]) = (splitNl l).getLastD [] ++ [c] := by
            rw [lastNonBlankLine, hsplit, List.filter_append, hf1, List.getLastD_concat]
          have h2 : lastNonBlankLine l = (splitNl l).getLastD [] := by
            conv_lhs => rw [lastNonBlankLine, ← hSdecomp]
            rw [List.filter_append, hf2, List.getLastD_concat]
          rw [h1, trimStr_snoc_ws hw, ← h2]; exact ih
    · have hw' : isWs c = false := Bool.eq_false_iff.mpr hw
      have hc : ¬c = '\n' := by rintro rfl; simp [isWs] at hw'
      have h1 : lastNonBlankLine (l ++ [c]) = (splitNl l).getLastD [] ++ [c] := by
        have hnb : blankL ((splitNl l).getLastD [] ++ [c]) = false := by
          simp [blankL, List.all_append, hw']
        have hf1 : List.filter (fun x => !blankL x) [(splitNl l).getLastD [] ++ [c]]
            = [(splitNl l).getLastD [] ++ [c]] := by
          simp only [List.filter_cons, List.filter_nil, hnb, Bool.not_false]
          rfl
        rw [lastNonBlankLine, splitNl_snoc c hc, List.filter_append, hf1,
          List.getLastD_concat]
      have h2 : lastSeg (l ++ [c]) = lastChunk l ++ [c] := by
        rw [lastSeg]
        have hrev : (l ++ [c]).reverse = c :: l.reverse := by simp
        rw [hrev, List.dropWhile_cons, if_neg (by simp [hw']),
          List.takeWhile_cons, if_pos (by simp [notNl, hc]),
          List.reverse_cons, ← lastChunk_rev]
      rw [h1, h2]
      rfl

theorem lastSeg_trimLft :
    ∀ r : List Char, trimStr (lastSeg (trimLft r)) = trimStr (lastSeg r) := by
  intro r
  by_cases hall : ∀ c ∈ r, isWs c = true
  · have h1 : trimLft r = [] := List.dropWhile_eq_nil_iff.mpr hall
    have h2 : r.reverse.dropWhile isWs = [] :=
      List.dropWhile_eq_nil_iff.mpr (fun c hc => hall c (List.mem_reverse.mp hc))
    rw [h1, lastSeg, lastSeg, h2]
    simp
  · have hune : trimLft r ≠ [] := fun h => hall (List.dropWhile_eq_nil_iff.mp h)
    have hwall : ∀ c ∈ r.takeWhile isWs, isWs c = true :=
      fun c hc => List.mem_takeWhile_imp hc
    have hhead : isWs ((trimLft r).head hune) = false :=
      List.head_dropWhile_not isWs r hune
    have hdne : (trimLft r).reverse.dropWhile isWs ≠ [] := by
      intro hd
      have hrall : ∀ c ∈ (trimLft r).reverse, isWs c = true :=
        List.dropWhile_eq_nil_iff.mp hd
      have : isWs ((trimLft r).head hune) = true :=
        hrall _ (List.mem_reverse.mpr (List.head_mem hune))
      rw [hhead] at this; cases this
    have hrrev : r.reverse = (trimLft r).reverse ++ (r.takeWhile isWs).reverse := by
      conv_lhs => rw [← List.takeWhile_append_dropWhile isWs r]
      rw [List.reverse_append]
      rfl
    have hdrop : r.reverse.dropWhile isWs =
        (trimLft r).reverse.dropWhile isWs ++ (r.takeWhile isWs).reverse := by
      rw [hrrev, List.dropWhile_append,
        if_neg (by simpa [List.isEmpty_iff] using hdne)]
    rw [lastSeg, lastSeg, hdrop]
    by_cases hnl : ∃ x ∈ (trimLft r).reverse.dropWhile isWs, notNl x = false
    · rw [takeWhile_append_stop _ hnl]
    · have hdall : ∀ x ∈ (trimLft r).reverse.dropWhile isWs, notNl x = true := by
        intro x hx
        rcases Bool.eq_false_or_eq_true (notNl x) with ht | hf
        · exact ht
        · exact absurd ⟨x, hx, hf⟩ hnl
      have htw : ((trimLft r).reverse.dropWhile isWs).takeWhile notNl
          = (trimLft r).reverse.dropWhile isWs :=
        List.takeWhile_eq_self_iff.mpr hdall
      have happ : (((trimLft r).reverse.dropWhile isWs) ++ (r.takeWhile isWs).reverse).takeWhile notNl
          = (trimLft r).reverse.dropWhile isWs
            ++ ((r.takeWhile isWs).reverse).takeWhile notNl := by
        rw [List.takeWhile_append, htw, if_pos rfl]
      rw [happ, htw, List.reverse_append]
      refine (trimStr_all_ws_append ?_ _).symm
      intro x hx
      have hx1 : x ∈ ((r.takeWhile isWs).reverse).takeWhile notNl :=
        List.mem_reverse.mp hx
      have hx2 : x ∈ (r.takeWhile isWs).reverse :=
        (List.takeWhile_sublist _).subset hx1
      exact hwall x (List.mem_reverse.mp hx2)

theorem parse_eq_spec (r : List Char) : parseIntent r = specIntent r := by
  have hws : ∀ c ∈ creativeTok, isWs c = false := by decide
  have key : trimStr (lastChunk (trimStr r)) = trimStr (lastNonBlankLine r) := by
    rw [lastChunk_rev (trimStr r)]
    have h1 : (trimStr r).reverse = (trimLft r).reverse.dropWhile isWs := by
      rw [trimStr, trimRgt, List.reverse_reverse]
    rw [h1]
    show trimStr (lastSeg (trimLft r)) = _
    rw [lastSeg_trimLft, trim_lastNonBlank_eq_lastSeg]
  have hinc : includesL creativeTok (upper (trimStr (lastChunk (trimStr r))))
      = includesL creativeTok (upper (lastNonBlankLine r)) := by
    rw [key, upper_trimStr, includes_trimStr_ws creativeTok hws]
  simp only [parseIntent, specIntent]
  rw [hinc]

theorem mem_interleave_isBaseChunk {w : World} {e : Ev}
    (h : e ∈ interleave w.sched (aEvs w) (bEvs w)) : isBaseChunk e = true := by
  rcases mem_interleave h with h' | h'
  · exact isBaseChunk_aEvs w e h'
  · exact isBaseChunk_bEvs w e h'

theorem filterMap_interleave {f : Ev → Option String} {s : List Bool}
    {as bs : List Ev} (hbs : ∀ e ∈ bs, f e = none) :
    (interleave s as bs).filterMap f = as.filterMap f := by
  induction s generalizing as bs with
  | nil =>
    simp only [interleave, List.filterMap_append]
    rw [List.filterMap_eq_nil_iff.mpr hbs, List.append_nil]
  | cons t s ih =>
    cases t with
    | true =>
      cases as with
      | nil =>
        simp only [interleave, List.nil_append]
        exact List.filterMap_eq_nil_iff.mpr hbs
      | cons a as' => simp [interleave, List.filterMap_cons, ih hbs]
    | false =>
      cases bs with
      | nil => simp [interleave]
      | cons b bs' =>
        have hb : f b = none := hbs b (by simp)
        have hbs' : ∀ e ∈ bs', f e = none := fun e he => hbs e (by simp [he])
        simp [interleave, List.filterMap_cons, hb, ih hbs']

theorem isBaseChunk_not_synth {e : Ev} (h : isBaseChunk e = true) :
    isSynthChunk e = false ∧ isTerminal e = false := by
  cases e <;> simp_all [isBaseChunk, isSynthChunk, isTerminal]

/-- Claim C1 — code evaluated at the failing input: for a request where both
base providers fail, the streaming handler's dual-failure branch is
`return res.end()`: the stream is closed without any terminal event.  On
the concrete request below the full trace ends after the two error-marker
chunks and contains no `done`/`error` event anywhere — against the claim
that exactly one terminal event is always emitted and that a dual
base-provider failure still ends with a terminal event.  (The three
sibling variants all return a `FATAL` terminal record here, and §7(d) of
the spec requires a terminal event, so the spec is the evident intent and
the elided streaming branch is the slip.) -/
theorem claim_C1_dual_failure_stream_has_no_terminal_event :
    combineEvents ⟨"Explain TCP congestion control", "", some []⟩
        ⟨some "This asks for a technical explanation.\nFACTUAL",
         [], true, [], true, [], false, []⟩
      = [Ev.status "Classifying prompt intent...",
         Ev.initialData "Factual Pipeline (SOTA Base -> Quick Synth)"
           "This asks for a technical explanation.",
         Ev.status "Generating base responses...",
         Ev.chunkA errMarkA, Ev.chunkB errMarkB]
    ∧ (combineEvents ⟨"Explain TCP congestion control", "", some []⟩
        ⟨some "This asks for a technical explanation.\nFACTUAL",
         [], true, [], true, [], false, []⟩).all
        (fun e => !isTerminal e) = true :=
  ⟨by decide, by decide⟩

/-- Claim C2 — counterexample: when the underlying classifier call errors,
the adapter's catch branch returns an error-marker string instead of
escalating; parsing that string derives Intent FACTUAL, the FACTUAL
pipeline is selected and announced in `initial-data`, no `error` event is
ever emitted, and the stream ends with `done` — refuting the claim that a
classifier error is request-fatal with no Intent derived. -/
theorem claim_C2_counterexample :
    getGptResponseS none CLASSIFIER_MODEL
      = "ERROR: OpenAI API call failed for model gpt-4o."
    ∧ parseIntentStr (getGptResponseS none CLASSIFIER_MODEL) = Intent.FACTUAL
    ∧ Ev.initialData "Factual Pipeline (SOTA Base -> Quick Synth)" "" ∈
        combineEvents ⟨"q", "", some []⟩
          ⟨none, ["a"], false, ["b"], false, ["s"], false, []⟩
    ∧ (combineEvents ⟨"q", "", some []⟩
        ⟨none, ["a"], false, ["b"], false, ["s"], false, []⟩).getLast?
        = some (Ev.done "Stream complete.")
    ∧ (combineEvents ⟨"q", "", some []⟩
        ⟨none, ["a"], false, ["b"], false, ["s"], false, []⟩).all
        (fun e => !isErrorEv e) = true :=
  ⟨rfl, by decide, by decide, by decide, by decide⟩

theorem ends_done_of_plan {p c : String} {h : List Turn} {w : World} {pr lg : String}
    (hplan : synthPlan p c h.dropLast w = some (pr, lg)) :
    (combineEvents ⟨p, c, some h⟩ w).getLast? = some (Ev.done "Stream complete.") := by
  rw [combineEvents_eq_of_plan p c h w pr lg hplan, List.getLast?_concat]

theorem no_error_of_plan {p c : String} {h : List Turn} {w : World} {pr lg : String}
    (hplan : synthPlan p c h.dropLast w = some (pr, lg)) :
    ∀ m, Ev.error m ∉ combineEvents ⟨p, c, some h⟩ w := by
  intro m
  rw [combineEvents_eq_of_plan p c h w pr lg hplan]
  intro hm
  rcases List.mem_append.mp hm with hm | hm
  · rcases List.mem_append.mp hm with hm | hm
    · rcases List.mem_append.mp hm with hm | hm
      · rcases List.mem_append.mp hm with hm | hm
        · simp at hm
        · have := mem_interleave_isBaseChunk hm
          simp [isBaseChunk] at this
      · simp at hm
    · rcases hsf : w.synthFails with hf | ht <;> rw [hsf] at hm
      · simp at hm
      · simp at hm
  · simp at hm

theorem initialData_factual_of_plan {p c : String} {h : List Turn} {w : World}
    {pr lg : String} (hplan : synthPlan p c h.dropLast w = some (pr, lg))
    (hcb : w.classifierBackend = none) :
    Ev.initialData "Factual Pipeline (SOTA Base -> Quick Synth)" "" ∈
      combineEvents ⟨p, c, some h⟩ w := by
  have hint : parseIntentStr (getGptResponseS none CLASSIFIER_MODEL) = Intent.FACTUAL := by
    decide
  have hreas : reasoningOf (getGptResponseS none CLASSIFIER_MODEL) = "" := by decide
  rw [combineEvents_eq_of_plan p c h w pr lg hplan, hcb]
  simp [hint, hreas, DYNAMIC_PIPELINES]

/-- Claim C2, amended — what the code actually does on a classifier error:
the adapter converts the failure into an error-marker string, the parser
silently derives Intent FACTUAL from it, the FACTUAL pipeline is selected
and announced, and the request proceeds normally: in every run where the
base providers do not both fail — both succeed, only A fails, or only B
fails — the stream contains no `error` event and ends with `done`. -/
theorem claim_C2_amended (p c : String) (h : List Turn) (frA frB sFr : List String)
    (sF : Bool) (sched : List Bool) :
    parseIntentStr (getGptResponseS none CLASSIFIER_MODEL) = Intent.FACTUAL
    ∧ ((combineEvents ⟨p, c, some h⟩
          ⟨none, frA, false, frB, false, sFr, sF, sched⟩).getLast?
          = some (Ev.done "Stream complete.")
        ∧ Ev.initialData "Factual Pipeline (SOTA Base -> Quick Synth)" "" ∈
            combineEvents ⟨p, c, some h⟩ ⟨none, frA, false, frB, false, sFr, sF, sched⟩
        ∧ ∀ m, Ev.error m ∉
            combineEvents ⟨p, c, some h⟩ ⟨none, frA, false, frB, false, sFr, sF, sched⟩)
    ∧ ((combineEvents ⟨p, c, some h⟩
          ⟨none, frA, true, frB, false, sFr, sF, sched⟩).getLast?
          = some (Ev.done "Stream complete.")
        ∧ Ev.initialData "Factual Pipeline (SOTA Base -> Quick Synth)" "" ∈
            combineEvents ⟨p, c, some h⟩ ⟨none, frA, true, frB, false, sFr, sF, sched⟩
        ∧ ∀ m, Ev.error m ∉
            combineEvents ⟨p, c, some h⟩ ⟨none, frA, true, frB, false, sFr, sF, sched⟩)
    ∧ ((combineEvents ⟨p, c, some h⟩
          ⟨none, frA, false, frB, true, sFr, sF, sched⟩).getLast?
          = some (Ev.done "Stream complete.")
        ∧ Ev.initialData "Factual Pipeline (SOTA Base -> Quick Synth)" "" ∈
            combineEvents ⟨p, c, some h⟩ ⟨none, frA, false, frB, true, sFr, sF, sched⟩
        ∧ ∀ m, Ev.error m ∉
            combineEvents ⟨p, c, some h⟩ ⟨none, frA, false, frB, true, sFr, sF, sched⟩) := by
  have hplan1 : synthPlan p c h.dropLast ⟨none, frA, false, frB, false, sFr, sF, sched⟩
      = some (getSynthesisPromptS p (String.join frA) (String.join frB) c h.dropLast, "") := by
    simp [synthPlan, decideFallback]
  have hplan2 : synthPlan p c h.dropLast ⟨none, frA, true, frB, false, sFr, sF, sched⟩
      = some (getRefinementPromptS p (String.join frB) c h.dropLast,
              "Model A failed. Refining Model B's response.") := by
    simp [synthPlan, decideFallback]
  have hplan3 : synthPlan p c h.dropLast ⟨none, frA, false, frB, true, sFr, sF, sched⟩
      = some (getRefinementPromptS p (String.join frA) c h.dropLast,
              "Model B failed. Refining Model A's response.") := by
    simp [synthPlan, decideFallback]
  exact ⟨by decide,
    ⟨ends_done_of_plan hplan1, initialData_factual_of_plan hplan1 rfl,
     no_error_of_plan hplan1⟩,
    ⟨ends_done_of_plan hplan2, initialData_factual_of_plan hplan2 rfl,
     no_error_of_plan hplan2⟩,
    ⟨ends_done_of_plan hplan3, initialData_factual_of_plan hplan3 rfl,
     no_error_of_plan hplan3⟩⟩

/-- Claim C5 — counterexample: in the basic server (and batch runners) the
failed flag is `result.includes('ERROR')`: a text successfully returned by
the provider (the adapter's catch path did not run) that merely contains
the substring "ERROR" is classified as a failure, and the pipeline
branches to refinement of the other provider's answer. -/
theorem claim_C5_counterexample :
    getGptResponseIdx (some "A 404 ERROR means the page was not found.") "gpt-5"
      = "A 404 ERROR means the page was not found."
    ∧ baseFailedIdx "A 404 ERROR means the page was not found." = true
    ∧ combineFallbackStepIdx "What is a 404?"
        "A 404 ERROR means the page was not found." "fine answer"
        = some (getRefinementPromptIdx "What is a 404?" "fine answer",
                "A primary model was unavailable. Refining the best available response.") := by
  have h1 : baseFailedIdx "A 404 ERROR means the page was not found." = true := by decide
  have h2 : baseFailedIdx "fine answer" = false := by decide
  exact ⟨rfl, h1, by simp [combineFallbackStepIdx, h1, h2]⟩

/-- Claim C5, amended — failure signalling as implemented: a base result is
treated as failed exactly when its text contains the substring "ERROR";
the adapter's own catch path always produces such a text (so an adapter
error does imply the failed classification), but content inspection is the
actual and only mechanism, so successful texts containing "ERROR" are
also treated as failed. -/
theorem claim_C5_amended (content model : String) :
    baseFailedIdx (getGptResponseIdx none model) = true
    ∧ (baseFailedIdx content = true
        ↔ ∃ s t, content.data = s ++ "ERROR".data ++ t) := by
  constructor
  · show includesL "ERROR".data (getGptResponseIdx none model).data = true
    apply (includesL_iff _ _).mpr
    refine ⟨[], ": OpenAI API call failed for model ".data ++ model.data ++ ".".data, ?_⟩
    show ("ERROR: OpenAI API call failed for model " ++ model ++ ".").data = _
    have hsplitlit : "ERROR: OpenAI API call failed for model ".data
        = "ERROR".data ++ ": OpenAI API call failed for model ".data := by decide
    simp [String.data_append, hsplitlit]
  · show includesL "ERROR".data content.data = true ↔ _
    exact includesL_iff _ _

/-- Claim C7 — code evaluated at the failing input: a request with a
non-empty prompt and no `chatHistory` field is NOT processed like one with
an empty history — `chatHistory.slice(0, -1)` throws on `undefined`, the
outer catch emits an `error` event and the request fails; the identical
request with an explicit empty history runs to `done` with no error.
(The handler's own helpers `formatChatHistory` and `convertHistoryForApi`
both defensively accept an absent history, and the spec declares
`chatHistory` optional, so the unguarded `slice` is the slip.) -/
theorem claim_C7_absent_history_fails_request :
    combine ⟨"hi", "", none⟩ ⟨some "FACTUAL", ["a"], false, ["b"], false, ["s"], false, []⟩
      = .stream [Ev.error errMsgNoHistory]
    ∧ (combineEvents ⟨"hi", "", some []⟩
        ⟨some "FACTUAL", ["a"], false, ["b"], false, ["s"], false, []⟩).getLast?
        = some (Ev.done "Stream complete.")
    ∧ (combineEvents ⟨"hi", "", some []⟩
        ⟨some "FACTUAL", ["a"], false, ["b"], false, ["s"], false, []⟩).all
        (fun e => !isErrorEv e) = true :=
  ⟨by decide, by decide, by decide⟩

/-- Claim C3 — the classifier parsing rule, proved as an equivalence between
the implemented parse (trim the response, split on newlines, pop the last
line, trim and uppercase it, test for the substring "CREATIVE") and the
spec's statement: CREATIVE exactly when the last non-empty line — the last
line containing a non-whitespace character, a whitespace-only line not
being a content line — uppercased, contains "CREATIVE"; FACTUAL for every
other last line, including garbage and output that is empty after
trimming. -/
theorem claim_C3_classifier_parsing_rule (s : String) :
    parseIntentStr s = specIntentStr s :=
  parse_eq_spec s.data

/-- Claim C4 — the fallback decision is a function of the two failure flags
alone: both failed gives the dual-failure abort (no prompt is built, and
the handler's trace contains no synthesis event and no terminal event);
exactly one failed gives a refinement prompt built only from the surviving
provider's content (the decision is invariant in the failed side's text)
together with a fallback log naming the failed side; neither failed gives
the synthesis prompt over both contents and an empty fallback log. -/
theorem claim_C4_fallback_decision (p gR gR' mR mR' c : String) (h : List Turn)
    (cb : Option String) (frA frB sFr : List String) (sF : Bool) (sched : List Bool) :
    decideFallback true true p gR mR c h = none
    ∧ decideFallback true false p gR mR c h
        = some (getRefinementPromptS p mR c h,
                "Model A failed. Refining Model B's response.")
    ∧ decideFallback true false p gR mR c h = decideFallback true false p gR' mR c h
    ∧ jsIncludes "Model A failed. Refining Model B's response." "Model A" = true
    ∧ decideFallback false true p gR mR c h
        = some (getRefinementPromptS p gR c h,
                "Model B failed. Refining Model A's response.")
    ∧ decideFallback false true p gR mR c h = decideFallback false true p gR mR' c h
    ∧ jsIncludes "Model B failed. Refining Model A's response." "Model B" = true
    ∧ decideFallback false false p gR mR c h
        = some (getSynthesisPromptS p gR mR c h, "")
    ∧ ∀ e ∈ combineEvents ⟨p, c, some h⟩ ⟨cb, frA, true, frB, true, sFr, sF, sched⟩,
        isSynthChunk e = false ∧ isTerminal e = false := by
  refine ⟨by simp [decideFallback], by simp [decideFallback], by simp [decideFallback],
    by decide, by simp [decideFallback], by simp [decideFallback], by decide,
    by simp [decideFallback], ?_⟩
  have hplan : synthPlan p c h.dropLast ⟨cb, frA, true, frB, true, sFr, sF, sched⟩
      = none := by simp [synthPlan, decideFallback]
  rw [combineEvents_eq_of_none p c h _ hplan]
  intro e he
  rcases List.mem_append.mp he with he | he
  · simp at he
    rcases he with rfl | rfl | rfl <;> exact ⟨rfl, rfl⟩
  · exact isBaseChunk_not_synth (mem_interleave_isBaseChunk he)

/-- Claim C6 — synthesizer failure is recovered locally, never made fatal:
in each non-dual-failure branch, when the synthesizer stream fails the
trace still ends with `done`, a note is appended to the fallback log and
re-emitted as a `fallback-log` event, and the surviving base result —
A's accumulated text unless A itself had failed, otherwise B's — is
emitted as a labelled fallback block in a `synthesis-chunk`. -/
theorem claim_C6_synth_failure_recovered (p c : String) (h : List Turn)
    (cb : Option String) (frA frB sFr : List String) (sched : List Bool) :
    ((combineEvents ⟨p, c, some h⟩
        ⟨cb, frA, false, frB, false, sFr, true, sched⟩).getLast?
        = some (Ev.done "Stream complete.")
      ∧ Ev.fallbackLog " Synthesis step failed. Displaying best available response."
          ∈ combineEvents ⟨p, c, some h⟩ ⟨cb, frA, false, frB, false, sFr, true, sched⟩
      ∧ Ev.synthChunk (synthFailLabel ++ String.join frA)
          ∈ combineEvents ⟨p, c, some h⟩ ⟨cb, frA, false, frB, false, sFr, true, sched⟩)
    ∧ ((combineEvents ⟨p, c, some h⟩
        ⟨cb, frA, true, frB, false, sFr, true, sched⟩).getLast?
        = some (Ev.done "Stream complete.")
      ∧ Ev.fallbackLog ("Model A failed. Refining Model B's response."
            ++ " Synthesis step failed. Displaying best available response.")
          ∈ combineEvents ⟨p, c, some h⟩ ⟨cb, frA, true, frB, false, sFr, true, sched⟩
      ∧ Ev.synthChunk (synthFailLabel ++ String.join frB)
          ∈ combineEvents ⟨p, c, some h⟩ ⟨cb, frA, true, frB, false, sFr, true, sched⟩)
    ∧ ((combineEvents ⟨p, c, some h⟩
        ⟨cb, frA, false, frB, true, sFr, true, sched⟩).getLast?
        = some (Ev.done "Stream complete.")
      ∧ Ev.fallbackLog ("Model B failed. Refining Model A's response."
            ++ " Synthesis step failed. Displaying best available response.")
          ∈ combineEvents ⟨p, c, some h⟩ ⟨cb, frA, false, frB, true, sFr, true, sched⟩
      ∧ Ev.synthChunk (synthFailLabel ++ String.join frA)
          ∈ combineEvents ⟨p, c, some h⟩ ⟨cb, frA, false, frB, true, sFr, true, sched⟩) := by
  have hs : ("" : String) ++ " Synthesis step failed. Displaying best available response."
      = " Synthesis step failed. Displaying best available response." := by decide
  have hplan1 : synthPlan p c h.dropLast ⟨cb, frA, false, frB, false, sFr, true, sched⟩
      = some (getSynthesisPromptS p (String.join frA) (String.join frB) c h.dropLast, "") := by
    simp [synthPlan, decideFallback]
  have hplan2 : synthPlan p c h.dropLast ⟨cb, frA, true, frB, false, sFr, true, sched⟩
      = some (getRefinementPromptS p (String.join frB) c h.dropLast,
              "Model A failed. Refining Model B's response.") := by
    simp [synthPlan, decideFallback]
  have hplan3 : synthPlan p c h.dropLast ⟨cb, frA, false, frB, true, sFr, true, sched⟩
      = some (getRefinementPromptS p (String.join frA) c h.dropLast,
              "Model B failed. Refining Model A's response.") := by
    simp [synthPlan, decideFallback]
  have ht1 := combineEvents_eq_of_plan p c h _ _ _ hplan1
  have ht2 := combineEvents_eq_of_plan p c h _ _ _ hplan2
  have ht3 := combineEvents_eq_of_plan p c h _ _ _ hplan3
  refine ⟨⟨?_, ?_, ?_⟩, ⟨?_, ?_, ?_⟩, ⟨?_, ?_, ?_⟩⟩
  · rw [ht1, List.getLast?_concat]
  · rw [ht1]; simp [List.mem_append, hs]
  · rw [ht1]; simp [List.mem_append]
  · rw [ht2, List.getLast?_concat]
  · rw [ht2]; simp [List.mem_append]
  · rw [ht2]; simp [List.mem_append]
  · rw [ht3, List.getLast?_concat]
  · rw [ht3]; simp [List.mem_append]
  · rw [ht3]; simp [List.mem_append]

theorem mem_synthTail_not_base {w : World} {lg : String} {e : Ev}
    (he : e ∈ (if w.synthFails then
        w.synthFrags.map Ev.synthChunk
          ++ [Ev.fallbackLog
                (lg ++ " Synthesis step failed. Displaying best available response."),
              Ev.synthChunk (synthFailLabel
                ++ (if !w.aFails then String.join w.aFrags else String.join w.bFrags))]
      else w.synthFrags.map Ev.synthChunk)) : isBaseChunk e = false := by
  rcases hsf : w.synthFails with hf | ht <;> rw [hsf] at he
  · rcases List.mem_map.mp he with ⟨t, _, rfl⟩; rfl
  · rcases List.mem_append.mp he with he | he
    · rcases List.mem_map.mp he with ⟨t, _, rfl⟩; rfl
    · simp at he
      rcases he with rfl | rfl <;> rfl

/-- Claim C8 — the fork-join barrier: every trace of the streaming handler
splits as a first part containing no synthesis chunk (the classification
and the interleaved base-provider generation, joined by
`await Promise.all`) followed by a second part containing no base-provider
chunk (the fallback decision, the synthesizer stream and the terminal
event) — synthesis output never precedes the settlement of both base
streams. -/
theorem claim_C8_join_barrier_before_synthesis (req : Request) (w : World) :
    ∃ u v, combineEvents req w = u ++ v
      ∧ (∀ e ∈ u, isSynthChunk e = false)
      ∧ (∀ e ∈ v, isBaseChunk e = false) := by
  rcases req with ⟨p, c, och⟩
  rcases och with _ | ch
  · exact ⟨[], [Ev.error errMsgNoHistory], rfl, by simp, by
      intro e he
      simp at he
      rw [he]; rfl⟩
  · rcases hplan : synthPlan p c ch.dropLast w with _ | ⟨pr, lg⟩
    · refine ⟨[Ev.status "Classifying prompt intent...",
          Ev.initialData
            (DYNAMIC_PIPELINES (parseIntentStr
               (getGptResponseS w.classifierBackend CLASSIFIER_MODEL))).name
            (reasoningOf (getGptResponseS w.classifierBackend CLASSIFIER_MODEL)),
          Ev.status "Generating base responses..."]
          ++ interleave w.sched (aEvs w) (bEvs w), [], ?_, ?_, by simp⟩
      · rw [combineEvents_eq_of_none p c ch w hplan, List.append_nil]
      · intro e he
        rcases List.mem_append.mp he with he | he
        · simp at he
          rcases he with rfl | rfl | rfl <;> rfl
        · exact (isBaseChunk_not_synth (mem_interleave_isBaseChunk he)).1
    · refine ⟨[Ev.status "Classifying prompt intent...",
          Ev.initialData
            (DYNAMIC_PIPELINES (parseIntentStr
               (getGptResponseS w.classifierBackend CLASSIFIER_MODEL))).name
            (reasoningOf (getGptResponseS w.classifierBackend CLASSIFIER_MODEL)),
          Ev.status "Generating base responses..."]
          ++ interleave w.sched (aEvs w) (bEvs w),
          [Ev.fallbackLog lg, Ev.status "Synthesizing final response..."]
          ++ (if w.synthFails then
                w.synthFrags.map Ev.synthChunk
                  ++ [Ev.fallbackLog
                        (lg ++ " Synthesis step failed. Displaying best available response."),
                      Ev.synthChunk (synthFailLabel
                        ++ (if !w.aFails then String.join w.aFrags
                            else String.join w.bFrags))]
              else w.synthFrags.map Ev.synthChunk)
          ++ [Ev.done "Stream complete."], ?_, ?_, ?_⟩
      · rw [combineEvents_eq_of_plan p c ch w pr lg hplan]
        simp [List.append_assoc]
      · intro e he
        rcases List.mem_append.mp he with he | he
        · simp at he
          rcases he with rfl | rfl | rfl <;> rfl
        · exact (isBaseChunk_not_synth (mem_interleave_isBaseChunk he)).1
      · intro e he
        rcases List.mem_append.mp he with he | he
        · rcases List.mem_append.mp he with he | he
          · simp at he
            rcases he with rfl | rfl <;> rfl
          · exact mem_synthTail_not_base he
        · simp at he
          rw [he]; rfl

theorem chunkATexts_map_chunkA : ∀ l : List String, chunkATexts (l.map Ev.chunkA) = l := by
  intro l
  induction l with
  | nil => rfl
  | cons x xs ih => simp [chunkATexts, List.filterMap_cons] at ih ⊢; exact ih

theorem chunkATexts_map_synthChunk :
    ∀ l : List String, chunkATexts (l.map Ev.synthChunk) = [] := by
  intro l
  induction l with
  | nil => rfl
  | cons x xs ih =>
    rw [chunkATexts] at ih ⊢
    simp only [List.map_cons, List.filterMap_cons]
    exact ih

theorem bEvs_chunkA_none (w : World) :
    ∀ e ∈ bEvs w, (fun e => match e with | Ev.chunkA t => some t | _ => none) e = none := by
  intro e he
  rcases List.mem_append.mp he with h | h
  · rcases List.mem_map.mp h with ⟨t, _, rfl⟩; rfl
  · rcases hb : w.bFails with hf | ht <;> rw [hb] at h
    · simp at h
    · rcases List.mem_singleton.mp (by simpa using h) with rfl; rfl

/-- Claim C9 — streaming loses and reorders nothing: for every request run
in which the base-A stream completes (with any fragments, any schedule
interleaving it with base-B, and any downstream outcome), the texts of the
`chunkA` events of the trace are exactly the fragments the backend
produced, in order, and their concatenation is base-A's full one-shot text
for the same inputs (`oneShotTextA`, the backend contract of §4.4 that the
streamed fragments concatenate to the one-shot result). -/
theorem claim_C9_chunkA_concat_roundtrip (p c : String) (h : List Turn)
    (cb : Option String) (frA frB sFr : List String) (bF sF : Bool)
    (sched : List Bool) :
    chunkATexts (combineEvents ⟨p, c, some h⟩
        ⟨cb, frA, false, frB, bF, sFr, sF, sched⟩) = frA
    ∧ String.join (chunkATexts (combineEvents ⟨p, c, some h⟩
        ⟨cb, frA, false, frB, bF, sFr, sF, sched⟩))
        = oneShotTextA ⟨cb, frA, false, frB, bF, sFr, sF, sched⟩ := by
  have hplanex : ∃ pr lg,
      synthPlan p c h.dropLast ⟨cb, frA, false, frB, bF, sFr, sF, sched⟩
        = some (pr, lg) := by
    cases bF with
    | false =>
        exact ⟨getSynthesisPromptS p (String.join frA) (String.join frB) c h.dropLast,
          "", by simp [synthPlan, decideFallback]⟩
    | true =>
        exact ⟨getRefinementPromptS p (String.join frA) c h.dropLast,
          "Model B failed. Refining Model A's response.",
          by simp [synthPlan, decideFallback]⟩
  rcases hplanex with ⟨pr, lg, hplan⟩
  have htrace := combineEvents_eq_of_plan p c h _ pr lg hplan
  have hmain : chunkATexts (combineEvents ⟨p, c, some h⟩
      ⟨cb, frA, false, frB, bF, sFr, sF, sched⟩) = frA := by
    rw [htrace]
    rw [chunkATexts, List.filterMap_append, List.filterMap_append,
      List.filterMap_append, List.filterMap_append]
    have h1 : List.filterMap
        (fun e => match e with | Ev.chunkA t => some t | _ => none)
        [Ev.status "Classifying prompt intent...",
         Ev.initialData
           (DYNAMIC_PIPELINES (parseIntentStr
              (getGptResponseS cb CLASSIFIER_MODEL))).name
           (reasoningOf (getGptResponseS cb CLASSIFIER_MODEL)),
         Ev.status "Generating base responses..."] = [] := by
      simp [List.filterMap_cons]
    have h2 : List.filterMap
        (fun e => match e with | Ev.chunkA t => some t | _ => none)
        (interleave sched
          (aEvs ⟨cb, frA, false, frB, bF, sFr, sF, sched⟩)
          (bEvs ⟨cb, frA, false, frB, bF, sFr, sF, sched⟩)) = frA := by
      rw [filterMap_interleave (bEvs_chunkA_none _)]
      show chunkATexts (aEvs ⟨cb, frA, false, frB, bF, sFr, sF, sched⟩) = frA
      rw [aEvs]
      show chunkATexts (frA.map Ev.chunkA ++ (if false then [Ev.chunkA errMarkA] else [])) = frA
      rw [if_neg (by simp), List.append_nil, chunkATexts_map_chunkA]
    have h3 : List.filterMap
        (fun e => match e with | Ev.chunkA t => some t | _ => none)
        [Ev.fallbackLog lg, Ev.status "Synthesizing final response..."] = [] := by
      simp [List.filterMap_cons]
    have h4 : List.filterMap
        (fun e => match e with | Ev.chunkA t => some t | _ => none)
        (if (⟨cb, frA, false, frB, bF, sFr, sF, sched⟩ : World).synthFails then
            (⟨cb, frA, false, frB, bF, sFr, sF, sched⟩ : World).synthFrags.map Ev.synthChunk
              ++ [Ev.fallbackLog
                    (lg ++ " Synthesis step failed. Displaying best available response."),
                  Ev.synthChunk (synthFailLabel
                    ++ (if !(⟨cb, frA, false, frB, bF, sFr, sF, sched⟩ : World).aFails
                        then String.join (⟨cb, frA, false, frB, bF, sFr, sF, sched⟩ : World).aFrags
                        else String.join (⟨cb, frA, false, frB, bF, sFr, sF, sched⟩ : World).bFrags))]
          else (⟨cb, frA, false, frB, bF, sFr, sF, sched⟩ : World).synthFrags.map Ev.synthChunk) = [] := by
      cases sF with
      | false =>
        have hz := chunkATexts_map_synthChunk sFr
        rw [chunkATexts] at hz
        simp only [if_neg (by simp : ¬(False : Prop))] at *
        exact hz
      | true =>
        rw [if_pos rfl, List.filterMap_append]
        have := chunkATexts_map_synthChunk sFr
        rw [chunkATexts] at this
        simp [this, List.filterMap_cons]
    have h5 : List.filterMap
        (fun e => match e with | Ev.chunkA t => some t | _ => none)
        [Ev.done "Stream complete."] = [] := by
      simp [List.filterMap_cons]
    rw [h1, h2, h3, h4, h5]
    simp
  exact ⟨hmain, by rw [hmain]; rfl⟩

/-- Claim C10 — failed-provider text never reaches the final answer: when a
base stream fails, the error-marker fragment is emitted as that provider's
chunk (visible in the stream) but is never appended to the accumulated
result; the synthesis/refinement prompt that is built equals the
refinement prompt over the survivor's accumulated fragments alone and is
invariant under the failed side's fragments; and the synthesizer-failure
fallback block surfaces exactly the survivor's accumulated text. -/
theorem claim_C10_failed_text_quarantined (p c : String) (h : List Turn)
    (cb : Option String) (frA frA' frB frB' sFr : List String)
    (sched : List Bool) :
    (Ev.chunkA errMarkA ∈ combineEvents ⟨p, c, some h⟩
        ⟨cb, frA, true, frB, false, sFr, true, sched⟩)
    ∧ synthPlan p c h.dropLast ⟨cb, frA, true, frB, false, sFr, true, sched⟩
        = some (getRefinementPromptS p (String.join frB) c h.dropLast,
                "Model A failed. Refining Model B's response.")
    ∧ synthPlan p c h.dropLast ⟨cb, frA, true, frB, false, sFr, true, sched⟩
        = synthPlan p c h.dropLast ⟨cb, frA', true, frB, false, sFr, true, sched⟩
    ∧ Ev.synthChunk (synthFailLabel ++ String.join frB)
        ∈ combineEvents ⟨p, c, some h⟩ ⟨cb, frA, true, frB, false, sFr, true, sched⟩
    ∧ (Ev.chunkB errMarkB ∈ combineEvents ⟨p, c, some h⟩
        ⟨cb, frA, false, frB, true, sFr, true, sched⟩)
    ∧ synthPlan p c h.dropLast ⟨cb, frA, false, frB, true, sFr, true, sched⟩
        = some (getRefinementPromptS p (String.join frA) c h.dropLast,
                "Model B failed. Refining Model A's response.")
    ∧ synthPlan p c h.dropLast ⟨cb, frA, false, frB, true, sFr, true, sched⟩
        = synthPlan p c h.dropLast ⟨cb, frA, false, frB', true, sFr, true, sched⟩
    ∧ Ev.synthChunk (synthFailLabel ++ String.join frA)
        ∈ combineEvents ⟨p, c, some h⟩ ⟨cb, frA, false, frB, true, sFr, true, sched⟩ := by
  have hplanA : synthPlan p c h.dropLast ⟨cb, frA, true, frB, false, sFr, true, sched⟩
      = some (getRefinementPromptS p (String.join frB) c h.dropLast,
              "Model A failed. Refining Model B's response.") := by
    simp [synthPlan, decideFallback]
  have hplanB : synthPlan p c h.dropLast ⟨cb, frA, false, frB, true, sFr, true, sched⟩
      = some (getRefinementPromptS p (String.join frA) c h.dropLast,
              "Model B failed. Refining Model A's response.") := by
    simp [synthPlan, decideFallback]
  have htA := combineEvents_eq_of_plan p c h _ _ _ hplanA
  have htB := combineEvents_eq_of_plan p c h _ _ _ hplanB
  refine ⟨?_, hplanA, by simp [synthPlan, decideFallback], ?_, ?_, hplanB,
    by simp [synthPlan, decideFallback], ?_⟩
  · rw [htA]
    have hmem : Ev.chunkA errMarkA
        ∈ aEvs ⟨cb, frA, true, frB, false, sFr, true, sched⟩ := by
      rw [aEvs]
      exact List.mem_append_right _ (by simp)
    simp only [List.mem_append]
    exact Or.inl (Or.inl (Or.inl (Or.inr (mem_interleave_left hmem))))
  · rw [htA]; simp [List.mem_append]
  · rw [htB]
    have hmem : Ev.chunkB errMarkB
        ∈ bEvs ⟨cb, frA, false, frB, true, sFr, true, sched⟩ := by
      rw [bEvs]
      exact List.mem_append_right _ (by simp)
    simp only [List.mem_append]
    exact Or.inl (Or.inl (Or.inl (Or.inr (mem_interleave_right hmem))))
  · rw [htB]; simp [List.mem_append]
